import Mathlib

/-!
Verification of the type renderer in `cmd/fillstruct/typestring.go`.

The Go file renders a `go/types` type graph into Go source syntax.  We give a
shallow embedding: the externally supplied type graph is a store (a list of
nodes indexed by `Nat` ids, modelling pointer identity by id equality), and the
renderer is a fuel-indexed recursive function producing the emitted text plus a
result tag.  Fuel is a modelling device only: `writeType_no_fuelOut` below shows
that the fuel chosen by `typeString` is never exhausted, for every store,
including cyclic graphs.
-/

namespace Fillstruct

/-- Kinds of `*types.Basic` nodes that the renderer distinguishes
(`types.Invalid`, `types.String`, `types.UnsafePointer`) plus a representative
sample of the remaining basic kinds, which the renderer treats uniformly. -/
inductive BasicKind where
  | invalid
  | bool
  | int
  | int8
  | int16
  | int32
  | int64
  | uint
  | uint8
  | float64
  | string
  | uptr
deriving DecidableEq, Repr

/-- Name of each modelled basic kind, `(*types.Basic).Name()`.  The `types.UnsafePointer`
basic type has name `Pointer` (the source prepends `unsafe.` to it). -/
def BasicKind.goName : BasicKind → String
  | .invalid => "invalid type"
  | .bool => "bool"
  | .int => "int"
  | .int8 => "int8"
  | .int16 => "int16"
  | .int32 => "int32"
  | .int64 => "int64"
  | .uint => "uint"
  | .uint8 => "uint8"
  | .float64 => "float64"
  | .string => "string"
  | .uptr => "Pointer"

/-- Channel direction (`types.ChanDir`); the source's `default: panic` branch is
unreachable because the direction enum is closed. -/
inductive ChanDir where
  | sendRecv
  | sendOnly
  | recvOnly
deriving DecidableEq, Repr

/-- A package (`*types.Package`).  `pid` models pointer identity: two packages
are the same object exactly when their `pid`s agree; `name` is `Name()`. -/
structure Pkg where
  pid : Nat
  name : String
deriving DecidableEq, Repr

/-- A struct field (`*types.Var` plus the tag from `(*types.Struct).Tag(i)`). -/
structure FieldV where
  name : String
  anonymous : Bool
  typ : Nat
  tag : String
deriving DecidableEq, Repr

/-- A tuple entry (`*types.Var`): optional name and the id of its type. -/
structure VarV where
  name : String
  typ : Nat
deriving DecidableEq, Repr

/-- A function signature (`*types.Signature`).  A nil parameter tuple renders
identically to an empty one (`()`), so both are modelled by `[]`. -/
structure SigV where
  params : List VarV
  results : List VarV
  variadic : Bool
deriving DecidableEq, Repr

/-- An interface method (`*types.Func`); its type is a `*types.Signature`,
carried inline because the source passes it straight to `writeSignature`
without a cycle-guard check. -/
structure MethodV where
  name : String
  sig : SigV
deriving DecidableEq, Repr

/-- One node of the type graph: the cases of the `switch` in `writeType`,
one constructor per `go/types` type.  Children are store ids, so a node can
(transitively) reference itself, modelling cyclic type graphs.  A `named` node
carries its underlying type's id (`under`); `writeType` never follows it, only
the variadic special case in `writeTuple` inspects `Underlying()`.  `foreign`
models externally defined `types.Type` implementations: `goType` is what
`%T` prints for it and `str` its `String()`. -/
inductive TyNode where
  | basic (kind : BasicKind)
  | array (len : Nat) (elem : Nat)
  | slice (elem : Nat)
  | strct (fields : List FieldV)
  | pointer (elem : Nat)
  | tuple (vars : List VarV)
  | sig (s : SigV)
  | iface (methods : List MethodV) (embeddeds : List Nat)
  | mapT (key : Nat) (elem : Nat)
  | chanT (dir : ChanDir) (elem : Nat)
  | named (objPkg : Option Pkg) (objName : String) (under : Nat)
  | foreign (goType : String) (str : String)
deriving DecidableEq, Repr

/-- Result of a rendering call: `ok` is a nil error, `err` the recoverable
error from `errors.New`, `fatal` a Go `panic`, and `fuelOut` the modelling
artifact for exhausted fuel (proved unreachable at `typeString`'s fuel). -/
inductive RResult where
  | ok
  | err (msg : String)
  | fatal (msg : String)
  | fuelOut
deriving DecidableEq, Repr

/-- What `%T` prints for a node, used by the cycle marker `○%T`. -/
def goTypeTag (store : List TyNode) (typ : Option Nat) : String :=
  match typ with
  | none => "<nil>"
  | some id =>
    match store[id]? with
    | none => "<nil>"
    | some (.basic _) => "*types.Basic"
    | some (.array _ _) => "*types.Array"
    | some (.slice _) => "*types.Slice"
    | some (.strct _) => "*types.Struct"
    | some (.pointer _) => "*types.Pointer"
    | some (.tuple _) => "*types.Tuple"
    | some (.sig _) => "*types.Signature"
    | some (.iface _ _) => "*types.Interface"
    | some (.mapT _ _) => "*types.Map"
    | some (.chanT _ _) => "*types.Chan"
    | some (.named _ _ _) => "*types.Named"
    | some (.foreign goType _) => goType

/-- One character of Go's `%q` quoting.  The common escapes are modelled; the
`\x`/`\u` escaping of other non-printable characters is simplified to the
character itself (no claim depends on it). -/
def goQuoteChar (c : Char) : String :=
  if c = '"' then "\\\""
  else if c = '\\' then "\\\\"
  else if c = '\n' then "\\n"
  else if c = '\t' then "\\t"
  else if c = '\r' then "\\r"
  else String.singleton c

/-- Go's `%q` on a string: double quotes around the escaped characters. -/
def goQuote (s : String) : String :=
  "\"" ++ String.join (s.toList.map goQuoteChar) ++ "\""

/-- Model of `Type.Underlying()` as used by the variadic special case: for a `named`
node the stored underlying type (by `go/types` invariant itself not a named
type, hence one step), for every other node the node itself. -/
def underlyingOf (store : List TyNode) (id : Nat) : Option TyNode :=
  match store[id]? with
  | some (.named _ _ u) => store[u]?
  | t => t

/-- Modelled from the spec: the helper `isImported` lives in another file of
the repository (not under the provided source).  Per the spec's qualification
rule, a named type's name must be qualified exactly when its owning scope
differs from the viewing scope, compared by identity (not by display name);
a type with no owning scope is handled by the nil-owner guard at the call
site in `writeType`. -/
def isImported (pkg : Pkg) (objPkg : Option Pkg) : Bool :=
  match objPkg with
  | none => true
  | some p => p.pid != pkg.pid

/-- The loop body of `writeTuple` over the tuple entries.  `wt` is the
recursive `writeType` call with the current cycle-guard list baked in (the
source threads `visited` through unchanged).  The `Bool` argument tells
whether the entry is the first one (`i > 0` separator test).  Errors returned
by `writeType` for an entry are discarded by the source (`writeType(buf, pkg,
typ, visited)` without using the result), so the loop continues after them; a
Go panic, in contrast, unwinds, so `fatal` (and the artifact `fuelOut`)
propagate. -/
def writeVars (store : List TyNode) (wt : Option Nat → String × RResult)
    (variadic : Bool) : Bool → List VarV → String × RResult
  | _, [] => ("", .ok)
  | isFirst, v :: rest =>
    let sep := if isFirst then "" else ", "
    let nm := if v.name = "" then "" else v.name ++ " "
    if variadic && rest.isEmpty then
      match store[v.typ]? with
      | some (.slice elem) =>
        -- the source writes "..." and then renders the slice's element type
        match wt (some elem) with
        | (s, .ok) => (sep ++ nm ++ "..." ++ s, .ok)
        | (s, .err _) => (sep ++ nm ++ "..." ++ s, .ok)
        | (s, r) => (sep ++ nm ++ "..." ++ s, r)
      | _ =>
        -- special case: append(s, "foo"...) leads to signature
        -- func([]byte, string...); anything else is a fatal contract violation
        match underlyingOf store v.typ with
        | some (.basic .string) =>
          match wt (some v.typ) with
          | (s, .ok) => (sep ++ nm ++ s ++ "...", .ok)
          | (s, .err _) => (sep ++ nm ++ s ++ "...", .ok)
          | (s, r) => (sep ++ nm ++ s, r)
        | _ => (sep ++ nm, .fatal "internal error: string type expected")
    else
      match wt (some v.typ) with
      | (s, .ok) =>
        match writeVars store wt variadic false rest with
        | (s2, r2) => (sep ++ nm ++ s ++ s2, r2)
      | (s, .err _) =>
        match writeVars store wt variadic false rest with
        | (s2, r2) => (sep ++ nm ++ s ++ s2, r2)
      | (s, r) => (sep ++ nm ++ s, r)

/-- Model of `writeTuple`: parentheses around the entries.  It always returns a nil
error (`return nil`), even when an entry's rendering errored; only a panic
(or fuel exhaustion) escapes before the closing parenthesis. -/
def writeTuple (store : List TyNode) (wt : Option Nat → String × RResult)
    (vars : List VarV) (variadic : Bool) : String × RResult :=
  match writeVars store wt variadic true vars with
  | (s, .ok) => ("(" ++ s ++ ")", .ok)
  | (s, r) => ("(" ++ s, r)

/-- Result part of `writeSignature`, after the parameter tuple `sp`: nothing
for zero results, a space and the bare type for a single unnamed result, a
space and a result tuple otherwise. -/
def writeSigResults (store : List TyNode) (wt : Option Nat → String × RResult)
    (sg : SigV) (sp : String) : String × RResult :=
  match sg.results with
  | [] => (sp, .ok)
  | [r0] =>
    if r0.name = "" then
      match wt (some r0.typ) with
      | (sr, rr) => (sp ++ " " ++ sr, rr)
    else
      match writeTuple store wt sg.results false with
      | (sr, rr) => (sp ++ " " ++ sr, rr)
  | _ =>
    match writeTuple store wt sg.results false with
    | (sr, rr) => (sp ++ " " ++ sr, rr)

/-- Model of `writeSignature`: parameter tuple (its returned error is
discarded at the call site), then the results via `writeSigResults`. -/
def writeSignature (store : List TyNode) (wt : Option Nat → String × RResult)
    (sg : SigV) : String × RResult :=
  match writeTuple store wt sg.params sg.variadic with
  | (sp, .ok) => writeSigResults store wt sg sp
  | (sp, .err _) => writeSigResults store wt sg sp
  | (sp, r) => (sp, r)

/-- The struct-field loop of `writeType`'s `*types.Struct` case: name (unless
anonymous), type, then the tag quoted by `%q` when non-empty; fields joined by
`"; "`.  An entry's error aborts the loop and propagates. -/
def writeFields (wt : Option Nat → String × RResult) :
    Bool → List FieldV → String × RResult
  | _, [] => ("", .ok)
  | isFirst, f :: rest =>
    let sep := if isFirst then "" else "; "
    let nm := if f.anonymous then "" else f.name ++ " "
    match wt (some f.typ) with
    | (s, .ok) =>
      let tg := if f.tag = "" then "" else " " ++ goQuote f.tag
      match writeFields wt false rest with
      | (s2, r2) => (sep ++ nm ++ s ++ tg ++ s2, r2)
    | (s, r) => (sep ++ nm ++ s, r)

/-- The explicit-method loop of the `*types.Interface` case: method name then
its signature; an error propagates. -/
def writeMethods (store : List TyNode) (wt : Option Nat → String × RResult) :
    Bool → List MethodV → String × RResult
  | _, [] => ("", .ok)
  | isFirst, m :: rest =>
    let sep := if isFirst then "" else "; "
    match writeSignature store wt m.sig with
    | (s, .ok) =>
      match writeMethods store wt false rest with
      | (s2, r2) => (sep ++ m.name ++ s ++ s2, r2)
    | (s, r) => (sep ++ m.name ++ s, r)

/-- The embedded-type loop of the `*types.Interface` case; the `Bool` is the
`i > 0 || t.NumMethods() > 0` separator condition for the next entry. -/
def writeEmbeddeds (wt : Option Nat → String × RResult) :
    Bool → List Nat → String × RResult
  | _, [] => ("", .ok)
  | needSep, e :: rest =>
    let sep := if needSep then "; " else ""
    match wt (some e) with
    | (s, .ok) =>
      match writeEmbeddeds wt true rest with
      | (s2, r2) => (sep ++ s ++ s2, r2)
    | (s, r) => (sep ++ s, r)

/-- Model of `writeType`, fuel-indexed.  The cycle guard scans `visited` for the node
(by id, modelling reference identity) and on a hit emits `○%T` and returns;
otherwise the node is appended to the path list and the `switch` runs.  `nil`
types print `nil`; an id not present in the store cannot arise from a real Go
value and yields the artifact result `fatal "dangling type id"`. -/
def writeType (store : List TyNode) (pkg : Pkg) :
    Nat → Option Nat → List (Option Nat) → String × RResult
  | 0, _, _ => ("", .fuelOut)
  | fuel+1, typ, visited =>
    if visited.contains typ then
      ("○" ++ goTypeTag store typ, .ok)
    else
      let visited := visited ++ [typ]
      let wt := fun t => writeType store pkg fuel t visited
      match typ with
      | none => ("nil", .ok)
      | some id =>
        match store[id]? with
        | none => ("", .fatal "dangling type id")
        | some (.basic k) =>
          if k = .invalid then ("", .err "TODO")
          else if k = .uptr then ("unsafe." ++ k.goName, .ok)
          else (k.goName, .ok)
        | some (.array len elem) =>
          match wt (some elem) with
          | (s, r) => ("[" ++ toString len ++ "]" ++ s, r)
        | some (.slice elem) =>
          match wt (some elem) with
          | (s, r) => ("[]" ++ s, r)
        | some (.strct fields) =>
          match writeFields wt true fields with
          | (s, .ok) => ("struct\x7b" ++ s ++ "\x7d", .ok)
          | (s, r) => ("struct\x7b" ++ s, r)
        | some (.pointer elem) =>
          match wt (some elem) with
          | (s, r) => ("*" ++ s, r)
        | some (.tuple vars) => writeTuple store wt vars false
        | some (.sig sg) =>
          match writeSignature store wt sg with
          | (s, r) => ("func" ++ s, r)
        | some (.iface ms es) =>
          match writeMethods store wt true ms with
          | (s, .ok) =>
            match writeEmbeddeds wt (!ms.isEmpty) es with
            | (s2, .ok) => ("interface\x7b" ++ s ++ s2 ++ "\x7d", .ok)
            | (s2, r2) => ("interface\x7b" ++ s ++ s2, r2)
          | (s, r) => ("interface\x7b" ++ s, r)
        | some (.mapT key elem) =>
          match wt (some key) with
          | (sk, .ok) =>
            match wt (some elem) with
            | (se, re) => ("map[" ++ sk ++ "]" ++ se, re)
          | (sk, rk) => ("map[" ++ sk, rk)
        | some (.chanT dir elem) =>
          let s := match dir with
            | .sendRecv => "chan "
            | .sendOnly => "chan<- "
            | .recvOnly => "<-chan "
          let parens := match dir, store[elem]? with
            | .sendRecv, some (.chanT .recvOnly _) => true
            | _, _ => false
          match wt (some elem) with
          | (se, .ok) =>
            (s ++ (if parens then "(" else "") ++ se ++
              (if parens then ")" else ""), .ok)
          | (se, re) => (s ++ (if parens then "(" else "") ++ se, re)
        | some (.named objPkg objName _under) =>
          if isImported pkg objPkg && objPkg.isSome then
            match objPkg with
            | some p => (p.name ++ "." ++ objName, .ok)
            | none => (objName, .ok)
          else (objName, .ok)
        | some (.foreign _ str) => (str, .ok)

/-- Model of `typeString`: run `writeType` on an empty cycle-guard list.  The fuel
`store.length + 2` strictly exceeds the number of candidate path entries
(`writeType_no_fuelOut` below), so the fuel never runs out. -/
def typeString (store : List TyNode) (pkg : Pkg) (typ : Option Nat) :
    String × RResult :=
  writeType store pkg (store.length + 2) typ []

/-! ### Counting lemmas for the cycle guard

The guard list only ever receives `nil` or nodes that exist in the store, so
the number of "fresh" candidate entries bounds the recursion depth. -/

theorem listCountP_le {α : Type} (p q : α → Bool)
    (himp : ∀ x, p x = true → q x = true) :
    ∀ l : List α, l.countP p ≤ l.countP q := by
  intro l
  induction l with
  | nil => simp [List.countP_nil]
  | cons a l ih =>
    rw [List.countP_cons, List.countP_cons]
    by_cases h : p a = true
    · rw [if_pos h, if_pos (himp a h)]
      omega
    · rw [if_neg h]
      have : List.countP q l ≤ List.countP q l + if q a = true then 1 else 0 := by
        split <;> omega
      omega

theorem listCountP_lt {α : Type} (p q : α → Bool)
    (himp : ∀ x, p x = true → q x = true) (a : α) :
    ∀ l : List α, a ∈ l → p a = false → q a = true →
      l.countP p < l.countP q := by
  intro l
  induction l with
  | nil => intro h; cases h
  | cons x xs ih =>
    intro hmem hpa hqa
    rw [List.countP_cons, List.countP_cons]
    rcases List.mem_cons.mp hmem with heq | hmem'
    · subst heq
      rw [if_neg (by simp [hpa]), if_pos hqa]
      have := listCountP_le p q himp xs
      omega
    · have hlt := ih hmem' hpa hqa
      have hle : (if p x = true then 1 else 0) ≤ (if q x = true then 1 else 0) := by
        by_cases h : p x = true
        · rw [if_pos h, if_pos (himp x h)]
        · rw [if_neg h]; split <;> omega
      omega

/-- The possible entries of the cycle-guard list arising from a real render:
the nil type and each node of the store. -/
def candidates (store : List TyNode) : List (Option Nat) :=
  none :: (List.range store.length).map some

/-- Number of candidate guard entries not yet on the recursion path. -/
def freshCount (store : List TyNode) (visited : List (Option Nat)) : Nat :=
  (candidates store).countP (fun t => !visited.contains t)

theorem freshCount_append_lt (store : List TyNode) (visited : List (Option Nat))
    (typ : Option Nat) (hmem : typ ∈ candidates store)
    (hnot : visited.contains typ = false) :
    freshCount store (visited ++ [typ]) < freshCount store visited := by
  have himp : ∀ x : Option Nat, (!(visited ++ [typ]).contains x) = true →
      (!visited.contains x) = true := by
    intro x hx
    simp only [Bool.not_eq_true'] at hx ⊢
    rcases hb : visited.contains x with _ | _
    · rfl
    · exfalso
      have hxmem : x ∈ visited ++ [typ] :=
        List.mem_append_left _ (List.elem_iff.mp hb)
      have hc : (visited ++ [typ]).contains x = true := List.elem_iff.mpr hxmem
      rw [hx] at hc
      cases hc
  have hpa : (!(visited ++ [typ]).contains typ) = false := by
    have hc : (visited ++ [typ]).contains typ = true :=
      List.elem_iff.mpr (List.mem_append_right _ (by simp))
    simp [hc]
  have hqa : (!visited.contains typ) = true := by rw [hnot]; rfl
  exact listCountP_lt _ _ himp typ (candidates store) hmem hpa hqa

theorem freshCount_le (store : List TyNode) (visited : List (Option Nat)) :
    freshCount store visited ≤ store.length + 1 := by
  have h : (candidates store).countP (fun t => !visited.contains t) ≤
      (candidates store).length :=
    List.countP_le_length (fun t => !visited.contains t)
  simpa [freshCount, candidates] using h

/-! ### Result-shape preservation through the helper loops

Each helper produces its result either literally (`ok`, the `fatal` of the
variadic contract check) or from a `writeType` call on a child, so any
predicate holding of those sources holds of the helper's result. -/

theorem writeVars_res (store : List TyNode) (wt : Option Nat → String × RResult)
    (variadic : Bool) (P : RResult → Prop) (hok : P .ok)
    (hfatal : ∀ m, P (.fatal m)) (hwt : ∀ t, P (wt t).2) :
    ∀ (b : Bool) (vs : List VarV), P (writeVars store wt variadic b vs).2 := by
  intro b vs
  induction vs generalizing b with
  | nil => simpa [writeVars] using hok
  | cons v rest ih =>
    rw [writeVars]
    split
    · split
      · rename_i x elem heq
        rcases hw : wt (some elem) with ⟨s, r⟩
        have hr : P r := by have := hwt (some elem); rw [hw] at this; exact this
        cases r <;> simp_all
      · split
        · rcases hw : wt (some v.typ) with ⟨s, r⟩
          have hr : P r := by have := hwt (some v.typ); rw [hw] at this; exact this
          cases r <;> simp_all
        · simpa using hfatal _
    · rcases hw : wt (some v.typ) with ⟨s, r⟩
      have hr : P r := by have := hwt (some v.typ); rw [hw] at this; exact this
      rcases hrest : writeVars store wt variadic false rest with ⟨s2, r2⟩
      have hr2 : P r2 := by have := ih false; rw [hrest] at this; exact this
      cases r <;> simp_all

theorem writeTuple_res (store : List TyNode) (wt : Option Nat → String × RResult)
    (vars : List VarV) (variadic : Bool) (P : RResult → Prop) (hok : P .ok)
    (hfatal : ∀ m, P (.fatal m)) (hwt : ∀ t, P (wt t).2) :
    P (writeTuple store wt vars variadic).2 := by
  rw [writeTuple]
  rcases hv : writeVars store wt variadic true vars with ⟨s, r⟩
  have hr : P r := by
    have := writeVars_res store wt variadic P hok hfatal hwt true vars
    rw [hv] at this; exact this
  cases r <;> simp_all

theorem writeSignature_res (store : List TyNode)
    (wt : Option Nat → String × RResult) (sg : SigV) (P : RResult → Prop)
    (hok : P .ok) (hfatal : ∀ m, P (.fatal m)) (hwt : ∀ t, P (wt t).2) :
    P (writeSignature store wt sg).2 := by
  have hres : P (writeSigResults store wt sg
      ((writeTuple store wt sg.params sg.variadic).1)).2 := by
    rw [writeSigResults]
    rcases hrs : sg.results with _ | ⟨r0, rest⟩
    · simpa using hok
    · rcases rest with _ | ⟨r1, rest'⟩
      · by_cases hnm : r0.name = ""
        · rcases hw : wt (some r0.typ) with ⟨sr, rr⟩
          have hr : P rr := by have := hwt (some r0.typ); rw [hw] at this; exact this
          simp_all
        · rcases ht : writeTuple store wt sg.results false with ⟨sr, rr⟩
          have hr : P rr := by
            have := writeTuple_res store wt sg.results false P hok hfatal hwt
            rw [ht] at this; exact this
          simp_all
      · rcases ht : writeTuple store wt sg.results false with ⟨sr, rr⟩
        have hr : P rr := by
          have := writeTuple_res store wt sg.results false P hok hfatal hwt
          rw [ht] at this; exact this
        simp_all
  rw [writeSignature]
  rcases ht : writeTuple store wt sg.params sg.variadic with ⟨sp, rp⟩
  have hrp : P rp := by
    have := writeTuple_res store wt sg.params sg.variadic P hok hfatal hwt
    rw [ht] at this; exact this
  cases rp <;> simp_all

theorem writeFields_res (wt : Option Nat → String × RResult)
    (P : RResult → Prop) (hok : P .ok) (hwt : ∀ t, P (wt t).2) :
    ∀ (b : Bool) (fs : List FieldV), P (writeFields wt b fs).2 := by
  intro b fs
  induction fs generalizing b with
  | nil => simpa [writeFields] using hok
  | cons f rest ih =>
    rw [writeFields]
    rcases hw : wt (some f.typ) with ⟨s, r⟩
    have hr : P r := by have := hwt (some f.typ); rw [hw] at this; exact this
    rcases hrest : writeFields wt false rest with ⟨s2, r2⟩
    have hr2 : P r2 := by have := ih false; rw [hrest] at this; exact this
    cases r <;> simp_all

theorem writeMethods_res (store : List TyNode)
    (wt : Option Nat → String × RResult) (P : RResult → Prop) (hok : P .ok)
    (hfatal : ∀ m, P (.fatal m)) (hwt : ∀ t, P (wt t).2) :
    ∀ (b : Bool) (ms : List MethodV), P (writeMethods store wt b ms).2 := by
  intro b ms
  induction ms generalizing b with
  | nil => simpa [writeMethods] using hok
  | cons m rest ih =>
    rw [writeMethods]
    rcases hw : writeSignature store wt m.sig with ⟨s, r⟩
    have hr : P r := by
      have := writeSignature_res store wt m.sig P hok hfatal hwt
      rw [hw] at this; exact this
    rcases hrest : writeMethods store wt false rest with ⟨s2, r2⟩
    have hr2 : P r2 := by have := ih false; rw [hrest] at this; exact this
    cases r <;> simp_all

theorem writeEmbeddeds_res (wt : Option Nat → String × RResult)
    (P : RResult → Prop) (hok : P .ok) (hwt : ∀ t, P (wt t).2) :
    ∀ (b : Bool) (es : List Nat), P (writeEmbeddeds wt b es).2 := by
  intro b es
  induction es generalizing b with
  | nil => simpa [writeEmbeddeds] using hok
  | cons e rest ih =>
    rw [writeEmbeddeds]
    rcases hw : wt (some e) with ⟨s, r⟩
    have hr : P r := by have := hwt (some e); rw [hw] at this; exact this
    rcases hrest : writeEmbeddeds wt true rest with ⟨s2, r2⟩
    have hr2 : P r2 := by have := ih true; rw [hrest] at this; exact this
    cases r <;> simp_all

/-! ### Fuel sufficiency

Every recursive call happens with the current node freshly appended to the
guard list, and only nodes of the store (or `nil`) ever reach the list, so the
fresh-candidate count strictly decreases along every path: fuel exceeding it
can never run out. -/

theorem writeType_no_fuelOut (store : List TyNode) (pkg : Pkg) :
    ∀ (fuel : Nat) (typ : Option Nat) (visited : List (Option Nat)),
      freshCount store visited < fuel →
      (writeType store pkg fuel typ visited).2 ≠ .fuelOut := by
  intro fuel
  induction fuel with
  | zero => intro typ visited h; omega
  | succ n ih =>
    intro typ visited hlt
    by_cases hc : visited.contains typ = true
    · rw [writeType, if_pos hc]
      simp
    · have hnc : visited.contains typ = false := by
        rcases hb : visited.contains typ with _ | _
        · rfl
        · exact absurd hb hc
      rw [writeType, if_neg hc]
      cases typ with
      | none => simp
      | some id =>
        rcases hs : store[id]? with _ | node
        · simp [hs]
        · have hmem : (some id : Option Nat) ∈ candidates store := by
            have hid : id < store.length := by
              rcases List.getElem?_eq_some.mp hs with ⟨h, _⟩
              exact h
            exact List.mem_cons_of_mem _
              (List.mem_map_of_mem _ (List.mem_range.mpr hid))
          have hdec : freshCount store (visited ++ [some id]) < n := by
            have h1 := freshCount_append_lt store visited (some id) hmem hnc
            omega
          have hwt : ∀ t,
              (writeType store pkg n t (visited ++ [some id])).2 ≠ .fuelOut :=
            fun t => ih t (visited ++ [some id]) hdec
          have hP : ∀ m : String, (RResult.fatal m) ≠ RResult.fuelOut := by
            intro m h; cases h
          cases node with
          | basic k =>
            simp only [hs]
            split
            · simp
            · split <;> simp
          | array len elem =>
            rcases hw : writeType store pkg n (some elem) (visited ++ [some id])
              with ⟨s, r⟩
            have hr := hwt (some elem)
            rw [hw] at hr
            simp [hs, hw, hr]
          | slice elem =>
            rcases hw : writeType store pkg n (some elem) (visited ++ [some id])
              with ⟨s, r⟩
            have hr := hwt (some elem)
            rw [hw] at hr
            simp [hs, hw, hr]
          | strct fields =>
            have h1 := writeFields_res
              (fun t => writeType store pkg n t (visited ++ [some id]))
              (fun r => r ≠ RResult.fuelOut) (by decide) hwt true fields
            rcases hw : writeFields
                (fun t => writeType store pkg n t (visited ++ [some id]))
                true fields with ⟨s, r⟩
            rw [hw] at h1
            cases r <;> simp_all [hs, hw]
          | pointer elem =>
            rcases hw : writeType store pkg n (some elem) (visited ++ [some id])
              with ⟨s, r⟩
            have hr := hwt (some elem)
            rw [hw] at hr
            simp [hs, hw, hr]
          | tuple vars =>
            have h1 := writeTuple_res store
              (fun t => writeType store pkg n t (visited ++ [some id]))
              vars false (fun r => r ≠ RResult.fuelOut) (by decide) hP hwt
            simpa [hs] using h1
          | sig sg =>
            have h1 := writeSignature_res store
              (fun t => writeType store pkg n t (visited ++ [some id]))
              sg (fun r => r ≠ RResult.fuelOut) (by decide) hP hwt
            rcases hw : writeSignature store
                (fun t => writeType store pkg n t (visited ++ [some id])) sg
              with ⟨s, r⟩
            rw [hw] at h1
            simp [hs, hw, h1]
          | iface ms es =>
            have h1 := writeMethods_res store
              (fun t => writeType store pkg n t (visited ++ [some id]))
              (fun r => r ≠ RResult.fuelOut) (by decide) hP hwt true ms
            rcases hw : writeMethods store
                (fun t => writeType store pkg n t (visited ++ [some id]))
                true ms with ⟨s, r⟩
            rw [hw] at h1
            have h2 := writeEmbeddeds_res
              (fun t => writeType store pkg n t (visited ++ [some id]))
              (fun r => r ≠ RResult.fuelOut) (by decide) hwt (!ms.isEmpty) es
            rcases hw2 : writeEmbeddeds
                (fun t => writeType store pkg n t (visited ++ [some id]))
                (!ms.isEmpty) es with ⟨s2, r2⟩
            rw [hw2] at h2
            cases r <;> cases r2 <;> simp_all [hs, hw, hw2]
          | mapT key elem =>
            rcases hw : writeType store pkg n (some key) (visited ++ [some id])
              with ⟨sk, rk⟩
            have hrk := hwt (some key)
            rw [hw] at hrk
            rcases hw2 : writeType store pkg n (some elem) (visited ++ [some id])
              with ⟨se, re⟩
            have hre := hwt (some elem)
            rw [hw2] at hre
            cases rk <;> simp_all [hs, hw, hw2]
          | chanT dir elem =>
            rcases hw : writeType store pkg n (some elem) (visited ++ [some id])
              with ⟨se, re⟩
            have hre := hwt (some elem)
            rw [hw] at hre
            cases re <;> simp_all [hs, hw]
          | named objPkg objName under =>
            simp only [hs]
            split
            · split <;> simp
            · simp
          | foreign goType str =>
            simp [hs]

theorem typeString_no_fuelOut (store : List TyNode) (pkg : Pkg)
    (typ : Option Nat) : (typeString store pkg typ).2 ≠ .fuelOut := by
  have h := freshCount_le store []
  exact writeType_no_fuelOut store pkg (store.length + 2) typ [] (by omega)

/-! ### The only recoverable error is the invalid-primitive error

`errors.New("TODO")` in the `*types.Basic` invalid branch is the only place a
non-nil error is created; every other non-ok outcome is a panic. -/

theorem writeType_err_msg (store : List TyNode) (pkg : Pkg) :
    ∀ (fuel : Nat) (typ : Option Nat) (visited : List (Option Nat)) (m : String),
      (writeType store pkg fuel typ visited).2 = .err m → m = "TODO" := by
  intro fuel
  induction fuel with
  | zero =>
    intro typ visited m h
    rw [writeType] at h
    cases h
  | succ n ih =>
    intro typ visited m
    by_cases hc : visited.contains typ = true
    · rw [writeType, if_pos hc]
      intro h; cases h
    · rw [writeType, if_neg hc]
      cases typ with
      | none => intro h; cases h
      | some id =>
        rcases hs : store[id]? with _ | node
        · simp [hs]
        · have hwt : ∀ t m,
              (writeType store pkg n t (visited ++ [some id])).2 = .err m →
                m = "TODO" :=
            fun t => ih t (visited ++ [some id])
          have hwt' : ∀ t, (fun r => ∀ m, r = .err m → m = "TODO")
              ((writeType store pkg n t (visited ++ [some id])).2) := by
            intro t m h; exact hwt t m h
          have hok : (fun r => ∀ m, r = RResult.err m → m = "TODO")
              RResult.ok := by intro m h; cases h
          have hFat : ∀ s, (fun r => ∀ m, r = RResult.err m → m = "TODO")
              (RResult.fatal s) := by intro s m h; cases h
          clear ih hwt
          cases node with
          | basic k =>
            simp only [hs]
            split
            · intro h
              injection h with h'
              exact h'.symm
            · split <;> · intro h; cases h
          | array len elem =>
            rcases hw : writeType store pkg n (some elem) (visited ++ [some id])
              with ⟨s, r⟩
            have hr := hwt' (some elem)
            rw [hw] at hr
            simp only [hs, hw]
            exact fun h => hr m h
          | slice elem =>
            rcases hw : writeType store pkg n (some elem) (visited ++ [some id])
              with ⟨s, r⟩
            have hr := hwt' (some elem)
            rw [hw] at hr
            simp only [hs, hw]
            exact fun h => hr m h
          | strct fields =>
            have h1 := writeFields_res
              (fun t => writeType store pkg n t (visited ++ [some id]))
              (fun r => ∀ m, r = .err m → m = "TODO") hok hwt' true fields
            rcases hw : writeFields
                (fun t => writeType store pkg n t (visited ++ [some id]))
                true fields with ⟨s, r⟩
            rw [hw] at h1
            simp only [hs, hw]
            cases r <;> exact fun h => h1 m h
          | pointer elem =>
            rcases hw : writeType store pkg n (some elem) (visited ++ [some id])
              with ⟨s, r⟩
            have hr := hwt' (some elem)
            rw [hw] at hr
            simp only [hs, hw]
            exact fun h => hr m h
          | tuple vars =>
            have h1 := writeTuple_res store
              (fun t => writeType store pkg n t (visited ++ [some id]))
              vars false (fun r => ∀ m, r = .err m → m = "TODO") hok hFat hwt'
            simp only [hs]
            exact fun h => h1 m h
          | sig sg =>
            have h1 := writeSignature_res store
              (fun t => writeType store pkg n t (visited ++ [some id]))
              sg (fun r => ∀ m, r = .err m → m = "TODO") hok hFat hwt'
            rcases hw : writeSignature store
                (fun t => writeType store pkg n t (visited ++ [some id])) sg
              with ⟨s, r⟩
            rw [hw] at h1
            simp only [hs, hw]
            exact fun h => h1 m h
          | iface ms es =>
            have h1 := writeMethods_res store
              (fun t => writeType store pkg n t (visited ++ [some id]))
              (fun r => ∀ m, r = .err m → m = "TODO") hok hFat hwt' true ms
            rcases hw : writeMethods store
                (fun t => writeType store pkg n t (visited ++ [some id]))
                true ms with ⟨s, r⟩
            rw [hw] at h1
            have h2 := writeEmbeddeds_res
              (fun t => writeType store pkg n t (visited ++ [some id]))
              (fun r => ∀ m, r = .err m → m = "TODO") hok hwt' (!ms.isEmpty) es
            rcases hw2 : writeEmbeddeds
                (fun t => writeType store pkg n t (visited ++ [some id]))
                (!ms.isEmpty) es with ⟨s2, r2⟩
            rw [hw2] at h2
            simp only [hs, hw, hw2]
            cases r with
            | ok => cases r2 <;> exact fun h => h2 m h
            | err m2 => exact fun h => h1 m h
            | fatal m2 => exact fun h => h1 m h
            | fuelOut => exact fun h => h1 m h
          | mapT key elem =>
            rcases hw : writeType store pkg n (some key) (visited ++ [some id])
              with ⟨sk, rk⟩
            have hrk := hwt' (some key)
            rw [hw] at hrk
            rcases hw2 : writeType store pkg n (some elem) (visited ++ [some id])
              with ⟨se, re⟩
            have hre := hwt' (some elem)
            rw [hw2] at hre
            simp only [hs, hw, hw2]
            cases rk with
            | ok => exact fun h => hre m h
            | err m2 => exact fun h => hrk m h
            | fatal m2 => exact fun h => hrk m h
            | fuelOut => exact fun h => hrk m h
          | chanT dir elem =>
            rcases hw : writeType store pkg n (some elem) (visited ++ [some id])
              with ⟨se, re⟩
            have hre := hwt' (some elem)
            rw [hw] at hre
            simp only [hs, hw]
            cases re <;> exact fun h => hre m h
          | named objPkg objName under =>
            simp only [hs]
            split
            · split <;> · intro h; cases h
            · intro h; cases h
          | foreign goType str =>
            simp [hs]

/-! ### `writeTuple` never returns the recoverable error

The source's `writeTuple` ends in `return nil` and discards the error results
of the element renderings, so a recoverable error can never escape a tuple. -/

theorem writeVars_no_err (store : List TyNode)
    (wt : Option Nat → String × RResult) (variadic : Bool) :
    ∀ (b : Bool) (vs : List VarV) (m : String),
      (writeVars store wt variadic b vs).2 ≠ .err m := by
  intro b vs
  induction vs generalizing b with
  | nil => intro m h; rw [writeVars] at h; cases h
  | cons v rest ih =>
    intro m
    rw [writeVars]
    split
    · split
      · rename_i x elem heq
        rcases hw : wt (some elem) with ⟨s, r⟩
        cases r <;> simp [hw]
      · split
        · rcases hw : wt (some v.typ) with ⟨s, r⟩
          cases r <;> simp [hw]
        · simp
    · rcases hw : wt (some v.typ) with ⟨s, r⟩
      rcases hrest : writeVars store wt variadic false rest with ⟨s2, r2⟩
      have h2 : r2 ≠ .err m := by
        have := ih false m; rw [hrest] at this; exact this
      cases r <;> simp [hw, hrest, h2]

theorem writeTuple_no_err (store : List TyNode)
    (wt : Option Nat → String × RResult) (vars : List VarV) (variadic : Bool)
    (m : String) : (writeTuple store wt vars variadic).2 ≠ .err m := by
  rw [writeTuple]
  rcases hv : writeVars store wt variadic true vars with ⟨s, r⟩
  have h := writeVars_no_err store wt variadic true vars m
  rw [hv] at h
  cases r <;> simp_all

/-! ### Helpers for stating the output-shape claims -/

theorem append_ne_empty_left (a b : String) (ha : a.length ≠ 0) :
    a ++ b ≠ "" := by
  intro h
  have h2 := congrArg String.length h
  rw [String.length_append, String.length_empty] at h2
  omega

/-- Strings joined by a separator, the claim's "fields joined by `; `". -/
def joinSep (sep : String) : List String → String
  | [] => ""
  | [a] => a
  | a :: rest => a ++ sep ++ joinSep sep rest

/-- Strings each preceded by the separator (the shape the loop produces for
all entries after the first). -/
def joinPre (sep : String) : List String → String
  | [] => ""
  | a :: rest => sep ++ a ++ joinPre sep rest

theorem joinSep_eq (sep : String) :
    ∀ (l : List String) (a : String),
      joinSep sep (a :: l) = a ++ joinPre sep l := by
  intro l
  induction l with
  | nil => intro a; simp [joinSep, joinPre, String.append_empty]
  | cons b t ih =>
    intro a
    have h1 : joinSep sep (a :: b :: t) = a ++ sep ++ joinSep sep (b :: t) := rfl
    rw [h1, ih b]
    simp [joinPre, String.append_assoc]

/-- The text the claim prescribes for one record field: optional name, the
field's type, optional quoted tag. -/
def fieldText (wt : Option Nat → String × RResult) (f : FieldV) : String :=
  (if f.anonymous then "" else f.name ++ " ") ++ (wt (some f.typ)).1 ++
    (if f.tag = "" then "" else " " ++ goQuote f.tag)

theorem writeFields_join_false (wt : Option Nat → String × RResult) :
    ∀ (fs : List FieldV), (∀ f ∈ fs, (wt (some f.typ)).2 = .ok) →
      writeFields wt false fs = (joinPre "; " (fs.map (fieldText wt)), .ok) := by
  intro fs
  induction fs with
  | nil => intro h; rfl
  | cons f rest ih =>
    intro h
    have hrest := ih (fun g hg => h g (List.mem_cons_of_mem f hg))
    rcases hw : wt (some f.typ) with ⟨s, r⟩
    have hf : r = .ok := by
      have h0 : (wt (some f.typ)).2 = .ok := h f (List.mem_cons_self f rest)
      rw [hw] at h0
      exact h0
    subst hf
    rw [writeFields, hw, hrest]
    simp only [List.map_cons, joinPre, fieldText, hw]
    simp [String.append_assoc]

theorem writeFields_join (wt : Option Nat → String × RResult)
    (fs : List FieldV) (h : ∀ f ∈ fs, (wt (some f.typ)).2 = .ok) :
    writeFields wt true fs = (joinSep "; " (fs.map (fieldText wt)), .ok) := by
  rcases fs with _ | ⟨f, rest⟩
  · rfl
  · have hrest := writeFields_join_false wt rest
      (fun g hg => h g (List.mem_cons_of_mem f hg))
    rcases hw : wt (some f.typ) with ⟨s, r⟩
    have hf : r = .ok := by
      have h0 : (wt (some f.typ)).2 = .ok := h f (List.mem_cons_self f rest)
      rw [hw] at h0
      exact h0
    subst hf
    rw [writeFields, hw, hrest]
    simp only [List.map_cons]
    rw [joinSep_eq]
    simp only [fieldText, hw]
    simp [String.append_assoc]

/-! ### Concrete stores used by witnesses and counterexamples -/

/-- The viewing package. -/
def pkgMain : Pkg := ⟨1, "main"⟩

/-- A pointer type pointing to itself: a genuinely cyclic graph. -/
def storeCyclic : List TyNode := [.pointer 0]

/-- The store of `func(...int)`: a variadic signature whose final parameter is `[]int`. -/
def storeVariadic : List TyNode :=
  [.basic .int, .slice 0, .sig ⟨[⟨"", 1⟩], [], true⟩]

/-- The store of `func(invalid)`: a signature whose only parameter has the invalid type. -/
def storeInvalidParam : List TyNode :=
  [.basic .invalid, .sig ⟨[⟨"", 0⟩], [], false⟩]

/-- The store of `append`'s signature `func(s []uint8, string...)`: the variadic
string-fallback shape. -/
def storeAppend : List TyNode :=
  [.basic .uint8, .slice 0, .basic .string,
   .sig ⟨[⟨"s", 1⟩, ⟨"", 2⟩], [], true⟩]

/-- A malformed model: a variadic signature whose final parameter is a bare
`int`, violating the renderer's contract. -/
def storeBadVariadic : List TyNode :=
  [.basic .int, .sig ⟨[⟨"x", 0⟩], [], true⟩]

/-- Assorted well-formed types for the remaining witnesses. -/
def mainStore : List TyNode :=
  [ .basic .int,                                   -- 0
    .basic .bool,                                  -- 1
    .basic .string,                                -- 2
    .sig ⟨[⟨"", 0⟩], [⟨"", 1⟩], false⟩,            -- 3 : func(int) bool
    .named none "error" 0,                         -- 4 : error (no owner)
    .sig ⟨[⟨"a", 0⟩], [⟨"", 1⟩, ⟨"", 4⟩], false⟩,  -- 5 : func(a int) (bool, error)
    .chanT .recvOnly 0,                            -- 6 : <-chan int
    .chanT .sendRecv 6,                            -- 7 : chan (<-chan int)
    .chanT .sendOnly 0,                            -- 8 : chan<- int
    .strct [⟨"X", false, 0, "json:\"x\""⟩,
            ⟨"error", true, 4, ""⟩],               -- 9 : struct
    .named (some ⟨2, "ext"⟩) "T" 0,                -- 10 : ext.T
    .named (some ⟨1, "main"⟩) "L" 0,               -- 11 : L (owner = viewer)
    .sig ⟨[⟨"", 0⟩], [⟨"r", 1⟩], false⟩,           -- 12 : func(int) (r bool)
    .sig ⟨[⟨"", 0⟩], [], false⟩ ]                  -- 13 : func(int)

/-! ### The claims -/

/-- C1: whenever a node is already on the active recursion path (matched by
reference identity against the `visited` list), `writeType` emits the cycle
marker `○` annotated with the node's `%T` kind tag and returns immediately
with a nil error, without descending; moreover rendering always terminates:
the fuel supplied by `typeString` is never exhausted, for every store,
including cyclic graphs. -/
theorem claim_C1_cycle_guard (store : List TyNode) (pkg : Pkg) (fuel : Nat)
    (typ : Option Nat) (visited : List (Option Nat)) :
    (visited.contains typ = true →
      writeType store pkg (fuel + 1) typ visited =
        ("○" ++ goTypeTag store typ, .ok)) ∧
    (typeString store pkg typ).2 ≠ .fuelOut := by
  refine ⟨fun hc => ?_, typeString_no_fuelOut store pkg typ⟩
  rw [writeType, if_pos hc]

theorem claim_C1_cycle_guard_witness :
    ([some 0] : List (Option Nat)).contains (some 0) = true ∧
    writeType storeCyclic pkgMain 3 (some 0) [some 0] =
      ("○*types.Pointer", .ok) ∧
    typeString storeCyclic pkgMain (some 0) = ("*○*types.Pointer", .ok) :=
  ⟨rfl, (claim_C1_cycle_guard storeCyclic pkgMain 2 (some 0) [some 0]).1 rfl,
    rfl⟩

/-- C2 (counterexample): for the variadic signature `func(...int)` the code
writes the token `...` BEFORE the element type — correct Go syntax — whereas
the claim prescribes the element type followed by `...` (which would be
`func(int...)`). -/
theorem claim_C2_counterexample :
    storeVariadic[2]? = some (.sig ⟨[⟨"", 1⟩], [], true⟩) ∧
    storeVariadic[1]? = some (.slice 0) ∧
    typeString storeVariadic pkgMain (some 2) = ("func(...int)", .ok) ∧
    typeString storeVariadic pkgMain (some 2) ≠ ("func(int...)", .ok) :=
  ⟨rfl, rfl, rfl, by decide⟩

/-- C2 (amended): when the final parameter of a variadic tuple has a slice
type, the parameter renders as its optional name, then the token `...`, then
the slice's element type, replacing the slice's own `[]` form — i.e. the
claim with the order of `...` and the element type swapped. -/
theorem claim_C2_amended (store : List TyNode)
    (wt : Option Nat → String × RResult) (isFirst : Bool) (v : VarV)
    (elem : Nat) (se : String)
    (hslice : store[v.typ]? = some (.slice elem))
    (hwt : wt (some elem) = (se, .ok)) :
    writeVars store wt true isFirst [v] =
      ((if isFirst then "" else ", ") ++
        (if v.name = "" then "" else v.name ++ " ") ++ "..." ++ se, .ok) := by
  rw [writeVars]
  simp [hslice, hwt]

theorem claim_C2_amended_witness :
    writeVars storeVariadic
      (fun t => writeType storeVariadic pkgMain 3 t [some 2]) true true
      [⟨"", 1⟩] = ("...int", .ok) :=
  claim_C2_amended storeVariadic
    (fun t => writeType storeVariadic pkgMain 3 t [some 2]) true ⟨"", 1⟩ 0
    "int" rfl rfl

/-- Does the node form a `*types.Slice` (the `typ.(*types.Slice)` type
assertion of the variadic special case)? -/
def isSliceNode : Option TyNode → Bool
  | some (.slice _) => true
  | _ => false

/-- Is the node the string basic type (the
`typ.Underlying().(*types.Basic)`-with-`Kind() == types.String` test)? -/
def isStringBasic : Option TyNode → Bool
  | some (.basic .string) => true
  | _ => false

theorem isStringBasic_iff (o : Option TyNode) :
    isStringBasic o = true ↔ o = some (.basic .string) := by
  rcases o with _ | node
  · simp [isStringBasic]
  · rcases node with k | _ | _ | _ | _ | _ | _ | _ | _ | _ | _ | _
    · cases k <;> simp [isStringBasic]
    all_goals simp [isStringBasic]

/-- C3: for the final parameter of a variadic tuple whose declared type is
not a slice: when the type's underlying is the string basic kind, the bare
type is rendered followed by `...`; otherwise rendering aborts with the
non-recoverable panic "internal error: string type expected", emitting no
text for the parameter's type (the separator and name were already written
before the check fires). -/
theorem claim_C3_variadic_fallback (store : List TyNode)
    (wt : Option Nat → String × RResult) (isFirst : Bool) (v : VarV)
    (s : String)
    (hnotslice : isSliceNode store[v.typ]? = false) :
    (isStringBasic (underlyingOf store v.typ) = true →
      wt (some v.typ) = (s, .ok) →
      writeVars store wt true isFirst [v] =
        ((if isFirst then "" else ", ") ++
          (if v.name = "" then "" else v.name ++ " ") ++ s ++ "...", .ok)) ∧
    (isStringBasic (underlyingOf store v.typ) = false →
      writeVars store wt true isFirst [v] =
        ((if isFirst then "" else ", ") ++
          (if v.name = "" then "" else v.name ++ " "),
         .fatal "internal error: string type expected")) := by
  have hred : writeVars store wt true isFirst [v] =
      (match underlyingOf store v.typ with
       | some (.basic .string) =>
          match wt (some v.typ) with
          | (s', .ok) =>
            ((if isFirst then "" else ", ") ++
              (if v.name = "" then "" else v.name ++ " ") ++ s' ++ "...", .ok)
          | (s', .err _) =>
            ((if isFirst then "" else ", ") ++
              (if v.name = "" then "" else v.name ++ " ") ++ s' ++ "...", .ok)
          | (s', r) =>
            ((if isFirst then "" else ", ") ++
              (if v.name = "" then "" else v.name ++ " ") ++ s', r)
       | _ =>
          ((if isFirst then "" else ", ") ++
            (if v.name = "" then "" else v.name ++ " "),
            .fatal "internal error: string type expected")) := by
    rw [writeVars]
    rcases hsv : store[v.typ]? with _ | node
    · simp [hsv]
    · rcases node with k | _ | e | _ | _ | _ | _ | _ | _ | _ | _ | _
      · simp [hsv]
      · simp [hsv]
      · exfalso; rw [hsv] at hnotslice; simp [isSliceNode] at hnotslice
      · simp [hsv]
      · simp [hsv]
      · simp [hsv]
      · simp [hsv]
      · simp [hsv]
      · simp [hsv]
      · simp [hsv]
      · simp [hsv]
      · simp [hsv]
  constructor
  · intro hstr hwt
    rw [hred, (isStringBasic_iff _).mp hstr, hwt]
  · intro hfls
    rcases hu : underlyingOf store v.typ with _ | unode
    · rw [hred, hu]
    · rcases unode with k | _ | _ | _ | _ | _ | _ | _ | _ | _ | _ | _
      · rcases k with _ | _ | _ | _ | _ | _ | _ | _ | _ | _ | _ | _
        · rw [hred, hu]
        · rw [hred, hu]
        · rw [hred, hu]
        · rw [hred, hu]
        · rw [hred, hu]
        · rw [hred, hu]
        · rw [hred, hu]
        · rw [hred, hu]
        · rw [hred, hu]
        · rw [hred, hu]
        · rw [hu] at hfls; simp [isStringBasic] at hfls
        · rw [hred, hu]
      all_goals rw [hred, hu]

theorem claim_C3_variadic_fallback_witness :
    writeVars storeAppend
        (fun t => writeType storeAppend pkgMain 3 t [some 3]) true false
        [⟨"", 2⟩] = (", string...", .ok) ∧
    writeVars storeBadVariadic
        (fun t => writeType storeBadVariadic pkgMain 3 t [some 1]) true true
        [⟨"x", 0⟩] = ("x ", .fatal "internal error: string type expected") :=
  ⟨(claim_C3_variadic_fallback storeAppend
      (fun t => writeType storeAppend pkgMain 3 t [some 3]) false ⟨"", 2⟩
      "string" rfl).1 rfl rfl,
   (claim_C3_variadic_fallback storeBadVariadic
      (fun t => writeType storeBadVariadic pkgMain 3 t [some 1]) true ⟨"x", 0⟩
      "" rfl).2 rfl⟩

/-- C4 (counterexample): an invalid primitive reached as a tuple parameter
does not make `typeString` return an error: the signature `func(invalid)`
renders as `("func()", ok)` although rendering the parameter alone errors —
`writeTuple` discards the element's error result. -/
theorem claim_C4_counterexample :
    storeInvalidParam[0]? = some (.basic .invalid) ∧
    storeInvalidParam[1]? = some (.sig ⟨[⟨"", 0⟩], [], false⟩) ∧
    (writeType storeInvalidParam pkgMain 2 (some 0) [some 1]).2 = .err "TODO" ∧
    typeString storeInvalidParam pkgMain (some 1) = ("func()", .ok) :=
  ⟨rfl, rfl, rfl, rfl⟩

/-- C4 (amended): every recoverable error the renderer returns is the
invalid-primitive error (`errors.New("TODO")` is the only error source), and
rendering a root that is the invalid sentinel returns that error with empty
output; however the converse direction of the claim fails: an invalid
primitive reached inside a tuple's parameter or result list does not
propagate, because `writeTuple` discards element errors (see the
counterexample). -/
theorem claim_C4_amended (store : List TyNode) (pkg : Pkg) :
    (∀ (fuel : Nat) (typ : Option Nat) (visited : List (Option Nat))
        (m : String),
        (writeType store pkg fuel typ visited).2 = .err m → m = "TODO") ∧
    (∀ id, store[id]? = some (.basic .invalid) →
        typeString store pkg (some id) = ("", .err "TODO")) := by
  refine ⟨writeType_err_msg store pkg, fun id hid => ?_⟩
  show writeType store pkg (store.length + 1 + 1) (some id) [] =
    ("", .err "TODO")
  have hc : (([] : List (Option Nat)).contains (some id)) = false := rfl
  rw [writeType, if_neg (by rw [hc]; exact Bool.false_ne_true)]
  simp [hid]

theorem claim_C4_amended_witness :
    typeString storeInvalidParam pkgMain (some 0) = ("", .err "TODO") ∧
    "TODO" = "TODO" :=
  ⟨(claim_C4_amended storeInvalidParam pkgMain).2 0 rfl,
   (claim_C4_amended storeInvalidParam pkgMain).1 2 (some 0) [] "TODO" rfl⟩

/-- C5: a named type renders as `<package-name>.<name>` exactly when its
owning package exists and differs (by identity) from the viewing package, and
as the bare `<name>` when the owner is the viewing package itself or when
there is no owner (universe-scoped types); the underlying type `under` is
arbitrary and absent from the right-hand side: the renderer never follows the
named type's definition.  (The qualification test `isImported` is modelled
from the spec, its source being outside the provided file.) -/
theorem claim_C5_named (store : List TyNode) (pkg : Pkg) (fuel : Nat)
    (id : Nat) (visited : List (Option Nat)) (objPkg : Option Pkg)
    (objName : String) (under : Nat)
    (hnode : store[id]? = some (.named objPkg objName under))
    (hnv : visited.contains (some id) = false) :
    writeType store pkg (fuel + 1) (some id) visited =
      (match objPkg with
       | none => (objName, .ok)
       | some p =>
         if p.pid = pkg.pid then (objName, .ok)
         else (p.name ++ "." ++ objName, .ok)) := by
  rw [writeType, if_neg (by rw [hnv]; exact Bool.false_ne_true)]
  rcases objPkg with _ | p
  · simp [hnode, isImported]
  · by_cases hp : p.pid = pkg.pid
    · simp [hnode, isImported, hp]
    · simp [hnode, isImported, hp]

theorem claim_C5_named_witness :
    writeType mainStore pkgMain 3 (some 10) [] = ("ext.T", .ok) ∧
    writeType mainStore pkgMain 3 (some 11) [] = ("L", .ok) ∧
    writeType mainStore pkgMain 3 (some 4) [] = ("error", .ok) :=
  ⟨claim_C5_named mainStore pkgMain 2 10 [] (some ⟨2, "ext"⟩) "T" 0 rfl rfl,
   claim_C5_named mainStore pkgMain 2 11 [] (some ⟨1, "main"⟩) "L" 0 rfl rfl,
   claim_C5_named mainStore pkgMain 2 4 [] none "error" 0 rfl rfl⟩

/-- C6: a signature node renders as `func` followed by the parameter tuple
(variadic-aware); nothing further when there are no results; a space and the
bare result type — no surrounding parentheses — for exactly one unnamed
result; and a space and a parenthesized result tuple otherwise (several
results, or a single named one). -/
theorem claim_C6_signature (store : List TyNode) (pkg : Pkg) (fuel : Nat)
    (id : Nat) (visited : List (Option Nat)) (sg : SigV) (sp : String)
    (hnode : store[id]? = some (.sig sg))
    (hnv : visited.contains (some id) = false)
    (hparams : writeTuple store
        (fun t => writeType store pkg fuel t (visited ++ [some id]))
        sg.params sg.variadic = (sp, .ok)) :
    (sg.results = [] →
      writeType store pkg (fuel + 1) (some id) visited =
        ("func" ++ sp, .ok)) ∧
    (∀ r0, sg.results = [r0] → r0.name = "" →
      writeType store pkg (fuel + 1) (some id) visited =
        ("func" ++ sp ++ " " ++
          (writeType store pkg fuel (some r0.typ) (visited ++ [some id])).1,
         (writeType store pkg fuel (some r0.typ) (visited ++ [some id])).2)) ∧
    ((2 ≤ sg.results.length ∨ ∃ r0, sg.results = [r0] ∧ r0.name ≠ "") →
      writeType store pkg (fuel + 1) (some id) visited =
        ("func" ++ sp ++ " " ++
          (writeTuple store
            (fun t => writeType store pkg fuel t (visited ++ [some id]))
            sg.results false).1,
         (writeTuple store
            (fun t => writeType store pkg fuel t (visited ++ [some id]))
            sg.results false).2)) := by
  have hmain : writeType store pkg (fuel + 1) (some id) visited =
      ("func" ++ (writeSignature store
          (fun t => writeType store pkg fuel t (visited ++ [some id])) sg).1,
        (writeSignature store
          (fun t => writeType store pkg fuel t (visited ++ [some id])) sg).2) := by
    rw [writeType, if_neg (by rw [hnv]; exact Bool.false_ne_true)]
    simp only [hnode]
  have hsig : writeSignature store
      (fun t => writeType store pkg fuel t (visited ++ [some id])) sg =
      writeSigResults store
        (fun t => writeType store pkg fuel t (visited ++ [some id])) sg sp := by
    rw [writeSignature, hparams]
  refine ⟨fun hres => ?_, fun r0 hres hnm => ?_, fun hcase => ?_⟩
  · rw [hmain, hsig, writeSigResults, hres]
  · rw [hmain, hsig, writeSigResults, hres]
    rcases hw : writeType store pkg fuel (some r0.typ) (visited ++ [some id])
      with ⟨sr, rr⟩
    simp [hnm, hw, String.append_assoc]
  · rcases hres : sg.results with _ | ⟨a, rest⟩
    · rcases hcase with h2 | ⟨r0, he, _⟩
      · rw [hres] at h2; simp at h2
      · rw [hres] at he; cases he
    · rcases rest with _ | ⟨b, t⟩
      · have hnm : ¬ a.name = "" := by
          rcases hcase with h2 | ⟨r0, he, hn⟩
          · rw [hres] at h2; simp at h2
          · rw [hres] at he
            injection he with h1 _
            rw [h1]
            exact hn
        rw [hmain, hsig, writeSigResults, hres]
        rcases hw : writeTuple store
            (fun t => writeType store pkg fuel t (visited ++ [some id]))
            [a] false with ⟨sr, rr⟩
        simp [hnm, hw, String.append_assoc]
      · rw [hmain, hsig, writeSigResults, hres]
        rcases hw : writeTuple store
            (fun t => writeType store pkg fuel t (visited ++ [some id]))
            (a :: b :: t) false with ⟨sr, rr⟩
        simp [hw, String.append_assoc]

theorem claim_C6_signature_witness :
    writeType mainStore pkgMain 4 (some 13) [] = ("func(int)", .ok) ∧
    writeType mainStore pkgMain 4 (some 3) [] = ("func(int) bool", .ok) ∧
    writeType mainStore pkgMain 4 (some 5) [] =
      ("func(a int) (bool, error)", .ok) ∧
    writeType mainStore pkgMain 4 (some 12) [] =
      ("func(int) (r bool)", .ok) :=
  ⟨(claim_C6_signature mainStore pkgMain 3 13 [] ⟨[⟨"", 0⟩], [], false⟩
      "(int)" rfl rfl rfl).1 rfl,
   (claim_C6_signature mainStore pkgMain 3 3 [] ⟨[⟨"", 0⟩], [⟨"", 1⟩], false⟩
      "(int)" rfl rfl rfl).2.1 ⟨"", 1⟩ rfl rfl,
   (claim_C6_signature mainStore pkgMain 3 5 []
      ⟨[⟨"a", 0⟩], [⟨"", 1⟩, ⟨"", 4⟩], false⟩ "(a int)" rfl rfl rfl).2.2
      (Or.inl (by decide)),
   (claim_C6_signature mainStore pkgMain 3 12 [] ⟨[⟨"", 0⟩], [⟨"r", 1⟩], false⟩
      "(int)" rfl rfl rfl).2.2 (Or.inr ⟨⟨"r", 1⟩, rfl, by decide⟩)⟩

/-- The direction prefix of a channel type. -/
def chanPrefixOf : ChanDir → String
  | .sendRecv => "chan "
  | .sendOnly => "chan<- "
  | .recvOnly => "<-chan "

/-- Is the node a receive-only channel (`c.Dir() == types.RecvOnly` after the
`t.Elem().(*types.Chan)` assertion)? -/
def isRecvOnlyChanNode : Option TyNode → Bool
  | some (.chanT .recvOnly _) => true
  | _ => false

/-- C7: a channel renders as its direction prefix (`chan `, `chan<- ` or
`<-chan `) followed by its element type, and the element is parenthesized
exactly when a bidirectional channel's element is a receive-only channel,
giving `chan (<-chan T)`. -/
theorem claim_C7_channel (store : List TyNode) (pkg : Pkg) (fuel : Nat)
    (id : Nat) (visited : List (Option Nat)) (dir : ChanDir) (elem : Nat)
    (se : String)
    (hnode : store[id]? = some (.chanT dir elem))
    (hnv : visited.contains (some id) = false)
    (helem : writeType store pkg fuel (some elem) (visited ++ [some id]) =
      (se, .ok)) :
    writeType store pkg (fuel + 1) (some id) visited =
      (chanPrefixOf dir ++
        (if dir = .sendRecv && isRecvOnlyChanNode store[elem]? then
          "(" ++ se ++ ")"
        else se), .ok) := by
  rw [writeType, if_neg (by rw [hnv]; exact Bool.false_ne_true)]
  cases dir
  · rcases he : store[elem]? with _ | enode
    · simp [hnode, helem, chanPrefixOf, isRecvOnlyChanNode, he,
        ← String.append_assoc]
    · rcases enode with k | _ | _ | _ | _ | _ | _ | _ | _ | ⟨d2, e2⟩ | _ | _
      case chanT =>
        cases d2 <;>
          simp [hnode, helem, chanPrefixOf, isRecvOnlyChanNode, he,
            ← String.append_assoc]
      all_goals
        simp [hnode, helem, chanPrefixOf, isRecvOnlyChanNode, he,
          ← String.append_assoc]
  · simp [hnode, helem, chanPrefixOf, isRecvOnlyChanNode]
  · simp [hnode, helem, chanPrefixOf, isRecvOnlyChanNode]

theorem claim_C7_channel_witness :
    writeType mainStore pkgMain 4 (some 7) [] = ("chan (<-chan int)", .ok) ∧
    writeType mainStore pkgMain 4 (some 8) [] = ("chan<- int", .ok) ∧
    writeType mainStore pkgMain 4 (some 6) [] = ("<-chan int", .ok) :=
  ⟨claim_C7_channel mainStore pkgMain 3 7 [] .sendRecv 6 "<-chan int" rfl rfl
      rfl,
   claim_C7_channel mainStore pkgMain 3 8 [] .sendOnly 0 "int" rfl rfl rfl,
   claim_C7_channel mainStore pkgMain 3 6 [] .recvOnly 0 "int" rfl rfl rfl⟩

/-- C8: a record renders as `struct{`, its fields joined by `; `, then `}`;
each field is its name followed by a space (the name omitted when the field
is embedded/anonymous), then the field's type, then — exactly when the tag is
non-empty — a space and the `%q`-quoted tag. -/
theorem claim_C8_record (store : List TyNode) (pkg : Pkg) (fuel : Nat)
    (id : Nat) (visited : List (Option Nat)) (fields : List FieldV)
    (hnode : store[id]? = some (.strct fields))
    (hnv : visited.contains (some id) = false)
    (hok : ∀ f ∈ fields,
      (writeType store pkg fuel (some f.typ) (visited ++ [some id])).2 = .ok) :
    writeType store pkg (fuel + 1) (some id) visited =
      ("struct\x7b" ++
        joinSep "; " (fields.map (fieldText
          (fun t => writeType store pkg fuel t (visited ++ [some id])))) ++
        "\x7d", .ok) := by
  rw [writeType, if_neg (by rw [hnv]; exact Bool.false_ne_true)]
  simp only [hnode]
  rw [writeFields_join _ fields hok]

theorem claim_C8_record_witness :
    writeType mainStore pkgMain 4 (some 9) [] =
      ("struct\x7bX int \"json:\\\"x\\\"\"; error\x7d", .ok) :=
  claim_C8_record mainStore pkgMain 3 9 []
    [⟨"X", false, 0, "json:\"x\""⟩, ⟨"error", true, 4, ""⟩] rfl rfl
    (by
      intro f hf
      simp only [List.mem_cons, List.not_mem_nil, or_false] at hf
      rcases hf with rfl | rfl <;> rfl)

/-- C9: rendering is a pure function of the store (type graph), viewing
package and root: the embedding threads no other state — the output buffer
and the cycle-guard list are local to one call — so two renders of identical
input are byte-identical.  In the functional model this determinism holds
definitionally. -/
theorem claim_C9_deterministic (store : List TyNode) (pkg : Pkg)
    (typ : Option Nat) :
    typeString store pkg typ = typeString store pkg typ := rfl

/-- C10: `typeString` returns the output accumulated before a failure
alongside the error (the buffer is not cleared), so an error accompanied by an
EMPTY string can only happen when the root itself is the invalid primitive:
every other node kind emits its leading tokens before any recursive call can
fail. -/
theorem claim_C10_partial_output (store : List TyNode) (pkg : Pkg)
    (typ : Option Nat) (s m : String)
    (herr : typeString store pkg typ = (s, .err m)) (hempty : s = "") :
    ∃ id, typ = some id ∧ store[id]? = some (.basic .invalid) := by
  subst hempty
  rw [typeString, show store.length + 2 = store.length + 1 + 1 from rfl,
    writeType,
    if_neg (by
      rw [show (([] : List (Option Nat)).contains typ) = false from rfl]
      exact Bool.false_ne_true)] at herr
  cases typ with
  | none =>
    have hx : RResult.ok = RResult.err m := congrArg Prod.snd herr
    cases hx
  | some id =>
    refine ⟨id, rfl, ?_⟩
    rcases hs : store[id]? with _ | node
    · simp only [hs] at herr
      have hx : RResult.fatal "dangling type id" = RResult.err m :=
        congrArg Prod.snd herr
      cases hx
    · cases node with
      | basic k =>
        by_cases hk : k = .invalid
        · rw [hk]
        · exfalso
          by_cases hk2 : k = .uptr
          · simp only [hs, if_neg hk, if_pos hk2] at herr
            have hx : RResult.ok = RResult.err m := congrArg Prod.snd herr
            cases hx
          · simp only [hs, if_neg hk, if_neg hk2] at herr
            have hx : RResult.ok = RResult.err m := congrArg Prod.snd herr
            cases hx
      | array len elem =>
        exfalso
        rcases hw : writeType store pkg (store.length + 1) (some elem)
            ([] ++ [some id]) with ⟨s', r'⟩
        simp only [hs, hw] at herr
        have hfst := congrArg (fun p : String × RResult => p.1.length) herr
        simp only [String.length_append, String.length_empty] at hfst
        have e1 : ("[" : String).length = 1 := rfl
        omega
      | slice elem =>
        exfalso
        rcases hw : writeType store pkg (store.length + 1) (some elem)
            ([] ++ [some id]) with ⟨s', r'⟩
        simp only [hs, hw] at herr
        have hfst := congrArg (fun p : String × RResult => p.1.length) herr
        simp only [String.length_append, String.length_empty] at hfst
        have e1 : ("[]" : String).length = 2 := rfl
        omega
      | strct fields =>
        exfalso
        rcases hw : writeFields
            (fun t => writeType store pkg (store.length + 1) t ([] ++ [some id]))
            true fields with ⟨s', r'⟩
        simp only [hs, hw] at herr
        have e1 : ("struct\x7b" : String).length = 7 := rfl
        cases r' <;>
          · have hfst := congrArg (fun p : String × RResult => p.1.length) herr
            simp only [String.length_append, String.length_empty] at hfst
            omega
      | pointer elem =>
        exfalso
        rcases hw : writeType store pkg (store.length + 1) (some elem)
            ([] ++ [some id]) with ⟨s', r'⟩
        simp only [hs, hw] at herr
        have hfst := congrArg (fun p : String × RResult => p.1.length) herr
        simp only [String.length_append, String.length_empty] at hfst
        have e1 : ("*" : String).length = 1 := rfl
        omega
      | tuple vars =>
        exfalso
        have hne := writeTuple_no_err store
          (fun t => writeType store pkg (store.length + 1) t ([] ++ [some id]))
          vars false m
        simp only [hs] at herr
        rw [herr] at hne
        exact hne rfl
      | sig sg =>
        exfalso
        rcases hw : writeSignature store
            (fun t => writeType store pkg (store.length + 1) t ([] ++ [some id]))
            sg with ⟨s', r'⟩
        simp only [hs, hw] at herr
        have hfst := congrArg (fun p : String × RResult => p.1.length) herr
        simp only [String.length_append, String.length_empty] at hfst
        have e1 : ("func" : String).length = 4 := rfl
        omega
      | iface ms es =>
        exfalso
        rcases hw : writeMethods store
            (fun t => writeType store pkg (store.length + 1) t ([] ++ [some id]))
            true ms with ⟨s', r'⟩
        rcases hw2 : writeEmbeddeds
            (fun t => writeType store pkg (store.length + 1) t ([] ++ [some id]))
            (!ms.isEmpty) es with ⟨s2, r2⟩
        simp only [hs, hw, hw2] at herr
        have e1 : ("interface\x7b" : String).length = 10 := rfl
        cases r' <;> cases r2 <;>
          · have hfst := congrArg (fun p : String × RResult => p.1.length)
              herr
            simp only [String.length_append, String.length_empty] at hfst
            omega
      | mapT key elem =>
        exfalso
        rcases hw : writeType store pkg (store.length + 1) (some key)
            ([] ++ [some id]) with ⟨sk, rk⟩
        rcases hw2 : writeType store pkg (store.length + 1) (some elem)
            ([] ++ [some id]) with ⟨se, re⟩
        simp only [hs, hw, hw2] at herr
        have e1 : ("map[" : String).length = 4 := rfl
        cases rk <;>
          · have hfst := congrArg (fun p : String × RResult => p.1.length) herr
            simp only [String.length_append, String.length_empty] at hfst
            omega
      | chanT dir elem =>
        exfalso
        rcases hw : writeType store pkg (store.length + 1) (some elem)
            ([] ++ [some id]) with ⟨se, re⟩
        have e1 : ("chan " : String).length = 5 := rfl
        have e2 : ("chan<- " : String).length = 7 := rfl
        have e3 : ("<-chan " : String).length = 7 := rfl
        cases dir <;> simp only [hs, hw] at herr <;> cases re <;>
          · have hfst := congrArg (fun p : String × RResult => p.1.length) herr
            simp only [String.length_append, String.length_empty] at hfst
            omega
      | named objPkg objName under =>
        exfalso
        simp only [hs] at herr
        rcases objPkg with _ | p
        · simp only [isImported] at herr
          have hx : RResult.ok = RResult.err m := congrArg Prod.snd herr
          cases hx
        · by_cases hp : (p.pid != pkg.pid) = true
          · simp only [isImported, hp] at herr
            have hx : RResult.ok = RResult.err m := congrArg Prod.snd herr
            cases hx
          · simp only [isImported, Bool.not_eq_true] at hp
            simp only [isImported, hp] at herr
            have hx : RResult.ok = RResult.err m := congrArg Prod.snd herr
            cases hx
      | foreign goType str =>
        exfalso
        simp only [hs] at herr
        have hx : RResult.ok = RResult.err m := congrArg Prod.snd herr
        cases hx

theorem claim_C10_partial_output_witness :
    typeString storeInvalidParam pkgMain (some 0) = ("", .err "TODO") ∧
    typeString mainStore pkgMain (some 0) = ("int", .ok) ∧
    (∃ id, (some 0 : Option Nat) = some id ∧
      storeInvalidParam[id]? = some (.basic .invalid)) :=
  ⟨rfl, rfl,
   claim_C10_partial_output storeInvalidParam pkgMain (some 0) "" "TODO" rfl
     rfl⟩

end Fillstruct
